import Mathlib

/-!
Verification of the mcprouter supervision and dispatch core.

This file is a shallow embedding, in Lean 4, of the parts of the
TypeScript source that the verified properties are about:

* `src/downstream-manager.ts` — `normalizeClusterUrl`, the per-endpoint
  state record, `ping`, `callTool`, `callToolOnAll`, `initializeAll`;
* `src/tool-router.ts` — tool classification (`refreshTools`), schema
  rewriting (`_enhanceRoutableTool`, `_enhanceFanOutTool`) and call
  dispatch (`routeCall`, `_routeToCluster`, `_routeFanOut`);
* `src/health-monitor.ts` — the reconnect backoff bookkeeping of
  `_scheduleReconnect` and its timer callback.

Modelling conventions:

* JavaScript `Map`s are insertion-ordered association lists
  (`List (String × _)`); JS `Set`s are insertion-ordered duplicate-free
  `List String` built with `addToSet`.
* Argument maps (`Record<string, unknown>`) are association lists with
  string values; the only argument the router ever inspects is
  `cluster`, which the source reads `as string`, so string values lose
  no generality.  JS truthiness of such a value is `v ≠ ""`.
* Asynchronous downstream I/O (the MCP client call, ping, reconnect) is
  modelled by passing the settled outcome in as an explicit parameter
  (an oracle).  "No downstream call is made" is then provable as
  independence of the result from the oracle.
* `string.toLowerCase()` and `string.trim()` are modelled on ASCII
  (`Char.isWhitespace`), which is exact for URLs and the characters the
  tests exercise.
* Timestamps (`new Date().toISOString()`) are abstracted to a `Nat`
  parameter `now`.
* `structuredClone` plus field update becomes ordinary functional
  record update; in the pure embedding the input value is shared,
  immutable and trivially unmutated.
-/

set_option maxRecDepth 16384

namespace McpRouter

/-! ## URL normalization — `normalizeClusterUrl` (downstream-manager.ts lines 43-50) -/

/-- ASCII model of JS `toLowerCase` on one character. -/
def lowerChar (c : Char) : Char :=
  if 'A' ≤ c ∧ c ≤ 'Z' then Char.ofNat (c.toNat + 32) else c

/-- Model of JS `String.prototype.trim` on the character list. -/
def jsTrim (l : List Char) : List Char :=
  ((l.dropWhile Char.isWhitespace).reverse.dropWhile Char.isWhitespace).reverse

/-- Model of `.replace(/\/+$/, '')`: remove every trailing slash. -/
def stripTrailingSlashes (l : List Char) : List Char :=
  (l.reverse.dropWhile (fun c => c = '/')).reverse

/-- `normalizeClusterUrl` from `downstream-manager.ts`:
`url.trim().toLowerCase()`, prepend `https://` unless the string starts
with `https://` or `http://`, then strip trailing slashes. -/
def normalizeClusterUrl (s : String) : String :=
  let t := (jsTrim s.data).map lowerChar
  let u :=
    if "https://".data.isPrefixOf t || "http://".data.isPrefixOf t then t
    else "https://".data ++ t
  String.mk (stripTrailingSlashes u)

example : normalizeClusterUrl "https://MyCluster.Kusto.Windows.Net" =
    "https://mycluster.kusto.windows.net" := by decide

example : normalizeClusterUrl "" = "https:" := by decide

/-! ## Shared data model (types.ts) -/

/-- `ConnectionStatus` from `types.ts`. -/
inductive ConnectionStatus
  | Connecting
  | Connected
  | Failed
  | Disconnected
deriving DecidableEq, Repr

/-- The string the source interpolates for a status value. -/
def statusText : ConnectionStatus → String
  | ConnectionStatus.Connecting => "Connecting"
  | ConnectionStatus.Connected => "Connected"
  | ConnectionStatus.Failed => "Failed"
  | ConnectionStatus.Disconnected => "Disconnected"

/-- `PropertySchema` from `types.ts`; the open index signature
(`[key: string]: unknown`) is collapsed into `others`, an opaque list of
extra fields that `structuredClone` and object spread preserve. -/
structure PropertySchema where
  type : Option String := none
  description : Option String := none
  enum : Option (List String) := none
  others : List (String × String) := []
deriving DecidableEq, Repr

/-- `ToolInputSchema` from `types.ts`; `properties` is a JS object,
i.e. an insertion-ordered association list with unique keys. -/
structure ToolInputSchema where
  properties : Option (List (String × PropertySchema)) := none
  required : Option (List String) := none
  additionalProperties : Option Bool := none
deriving DecidableEq, Repr

/-- `ToolDefinition` from `types.ts`. -/
structure ToolDefinition where
  name : String
  description : Option String := none
  inputSchema : ToolInputSchema
deriving DecidableEq, Repr

/-- One item of `ToolCallResult.content`; only the `type` and `text`
fields are ever read or written by the router core. -/
structure ToolContent where
  type : String
  text : Option String := none
deriving DecidableEq, Repr

/-- Shorthand for the `{ type: 'text', text: s }` literals the source builds. -/
def textContent (s : String) : ToolContent :=
  { type := "text", text := some s }

/-- `ToolCallResult` from `types.ts`; an absent `isError` is falsy in
every place the source reads it, so it is modelled as `false`. -/
structure ToolCallResult where
  content : List ToolContent
  isError : Bool := false
deriving DecidableEq, Repr

/-- A `--mapping` configuration entry (`types.ts` `ClusterMapping`). -/
structure ClusterMapping where
  clusterUrl : String
  identity : String
deriving DecidableEq, Repr

/-- Tool-call argument maps (`Record<string, unknown>`): insertion-ordered
association lists with string values (the only argument the router reads,
`cluster`, is treated `as string` by the source). -/
abbrev Args := List (String × String)

/-- JS `Array.prototype.join(', ')`. -/
def joinComma : List String → String
  | [] => ""
  | [x] => x
  | x :: y :: xs => x ++ ", " ++ joinComma (y :: xs)

/-- JS `Map.prototype.set` / keyed object assignment on the association-list
representation: replace the entry in place if the key exists, else append. -/
def setKey {β : Type} : List (String × β) → String → β → List (String × β)
  | [], k, v => [(k, v)]
  | p :: rest, k, v => if p.1 = k then (k, v) :: rest else p :: setKey rest k v

/-- JS `Map.prototype.delete` on the association-list representation
(maps never hold duplicate keys, so at most one entry is removed). -/
def eraseKey {β : Type} : List (String × β) → String → List (String × β)
  | [], _ => []
  | p :: rest, k => if p.1 = k then rest else p :: eraseKey rest k

/-- JS `Set.prototype.add` on the insertion-ordered-list representation. -/
def addToSet (s : List String) (x : String) : List String :=
  if x ∈ s then s else s ++ [x]

/-! ## Endpoint supervisor (downstream-manager.ts) -/

/-- `DownstreamState` from `downstream-manager.ts`; the live `client`,
`transport` and `process` references collapse to the single flag
`client` (present iff the MCP client is attached), and ISO timestamp
strings are abstracted to `Nat` instants. -/
structure DownstreamState where
  identity : String
  client : Bool
  status : ConnectionStatus
  lastHeartbeat : Option Nat := none
  consecutiveFailures : Nat := 0
  tools : List ToolDefinition := []
  reconnecting : Bool := false
deriving DecidableEq, Repr

/-- The `_downstreams` map: insertion-ordered, keyed by normalized URL. -/
abbrev DSMap := List (String × DownstreamState)

/-- `getClusterUrls`: the keys of `_downstreams` in insertion order. -/
def getClusterUrls (ds : DSMap) : List String :=
  ds.map Prod.fst

/-- `getToolDefinitions`: tools of the first `Connected` endpoint whose
discovered tool list is non-empty, else `[]`. -/
def getToolDefinitions (ds : DSMap) : List ToolDefinition :=
  match ds.find? (fun p =>
      p.2.status = ConnectionStatus.Connected ∧ p.2.tools ≠ []) with
  | some p => p.2.tools
  | none => []

/-- The endpoint record as it stands when one `initializeAll` task
finishes: `some tools` is a successful `_connectDownstream` (status
`Connected`, client attached, heartbeat `now`, zero failures, discovered
`tools`), `none` a failed connect (status `Failed`, no client). -/
def initialDownstreamState (m : ClusterMapping)
    (outcome : Option (List ToolDefinition)) (now : Nat) : DownstreamState :=
  match outcome with
  | some tools =>
    { identity := m.identity, client := true,
      status := ConnectionStatus.Connected, lastHeartbeat := some now,
      consecutiveFailures := 0, tools := tools, reconnecting := false }
  | none =>
    { identity := m.identity, client := false,
      status := ConnectionStatus.Failed, lastHeartbeat := none,
      consecutiveFailures := 0, tools := [], reconnecting := false }

/-- `initializeAll` (downstream-manager.ts lines 83-126): walk the config
mappings in order, dedupe by normalized URL keeping the first entry, and
create one record per endpoint; the per-endpoint connect attempt is
abstracted by `connectOutcome`.  The duplicate check and the `Map.set`
run in the synchronous prefix of each parallel task, in configuration
order, so map insertion order is deduplicated configuration order. -/
def initializeAll (mappings : List ClusterMapping)
    (connectOutcome : String → Option (List ToolDefinition)) (now : Nat) : DSMap :=
  mappings.foldl
    (fun ds m =>
      if (ds.lookup (normalizeClusterUrl m.clusterUrl)).isSome then ds
      else ds ++ [(normalizeClusterUrl m.clusterUrl,
        initialDownstreamState m
          (connectOutcome (normalizeClusterUrl m.clusterUrl)) now)])
    []

/-- The deduplicated configuration order of normalized endpoint URLs. -/
def dedupedClusterUrls (mappings : List ClusterMapping) : List String :=
  mappings.foldl (fun acc m => addToSet acc (normalizeClusterUrl m.clusterUrl)) []

/-- `ping` (downstream-manager.ts lines 320-361).  The downstream ping
I/O is abstracted by `outcome`: `true` means `client.ping()` won the race
against the timeout, `false` failure or timeout.  Returns the boolean
result together with the updated map. -/
def ping (ds : DSMap) (clusterUrl : String) (outcome : Bool) (now : Nat) :
    Bool × DSMap :=
  match ds.lookup (normalizeClusterUrl clusterUrl) with
  | none => (false, ds)
  | some st =>
    if st.client = false ∨ st.status ≠ ConnectionStatus.Connected then
      (false, ds)
    else if outcome then
      (true, setKey ds (normalizeClusterUrl clusterUrl)
        { st with lastHeartbeat := some now, consecutiveFailures := 0 })
    else
      let f := st.consecutiveFailures + 1
      (false, setKey ds (normalizeClusterUrl clusterUrl)
        { st with
          consecutiveFailures := f,
          status := (if 3 ≤ f then ConnectionStatus.Disconnected
                     else ConnectionStatus.Failed) })

/-- Text of the unknown-cluster error result in `callTool`. -/
def unknownClusterText (ds : DSMap) (clusterUrl : String) : String :=
  "Error: Unknown cluster \"" ++ clusterUrl ++ "\". Available clusters: " ++
    joinComma (getClusterUrls ds)

/-- Text of the not-connected error result in `callTool`. -/
def notConnectedText (clusterUrl : String) (status : ConnectionStatus) : String :=
  "Error: Downstream for cluster \"" ++ clusterUrl ++
    "\" is not connected (status: " ++ statusText status ++ "). Try again later."

/-- `callTool` (downstream-manager.ts lines 366-431).  The MCP client
call is abstracted by `invoke`: `Except.ok r` is a resolved
`client.callTool` (the source then passes `content` and `isError`
through), `Except.error msg` a thrown transport error, which the source
converts into a textual error result. -/
def callTool (ds : DSMap)
    (invoke : String → String → Args → Except String ToolCallResult)
    (clusterUrl toolName : String) (args : Args) : ToolCallResult :=
  match ds.lookup (normalizeClusterUrl clusterUrl) with
  | none =>
    { content := [textContent (unknownClusterText ds clusterUrl)], isError := true }
  | some st =>
    if st.client = false ∨ st.status ≠ ConnectionStatus.Connected then
      { content := [textContent (notConnectedText clusterUrl st.status)],
        isError := true }
    else
      match invoke (normalizeClusterUrl clusterUrl) toolName args with
      | Except.ok r => r
      | Except.error msg =>
        { content := [textContent ("Error calling tool \"" ++ toolName ++
            "\" on cluster \"" ++ clusterUrl ++ "\": " ++ msg)],
          isError := true }

/-- The endpoints `callToolOnAll` fans out to: `Connected` status with a
live client, in map insertion order. -/
def connectedEntries (ds : DSMap) : DSMap :=
  ds.filter (fun p =>
    p.2.status = ConnectionStatus.Connected ∧ p.2.client = true)

/-- Content contributed by one settled per-endpoint promise in the
`callToolOnAll` merge loop. -/
def settledContent : Except String ToolCallResult → List ToolContent
  | Except.ok v => v.content
  | Except.error reason => [textContent ("Error from one downstream: " ++ reason)]

/-- Whether one settled per-endpoint promise makes the aggregate an error. -/
def settledIsError : Except String ToolCallResult → Bool
  | Except.ok v => v.isError
  | Except.error _ => true

/-- The merge loop of `callToolOnAll` (downstream-manager.ts lines
462-480): fold the settled results, appending `content` of fulfilled
results, a textual entry for rejected ones, and or-ing the error flag. -/
def mergeSettledResults (results : List (Except String ToolCallResult)) :
    ToolCallResult :=
  let fin := results.foldl
    (fun (acc : List ToolContent × Bool) r =>
      match r with
      | Except.ok v => (acc.1 ++ v.content, acc.2 || v.isError)
      | Except.error reason =>
        (acc.1 ++ [textContent ("Error from one downstream: " ++ reason)], true))
    ([], false)
  { content := fin.1, isError := fin.2 }

/-- `callToolOnAll` (downstream-manager.ts lines 436-481).  `settle`
abstracts the settled promise of `this.callTool(url, toolName, args)`
per endpoint (`Promise.allSettled` semantics: `Except.ok` fulfilled,
`Except.error` rejected). -/
def callToolOnAll (ds : DSMap)
    (settle : String → Except String ToolCallResult) : ToolCallResult :=
  if (connectedEntries ds).isEmpty then
    { content := [textContent
        "Error: No downstream MCP servers are currently connected."],
      isError := true }
  else
    mergeSettledResults ((connectedEntries ds).map (fun p => settle p.1))

/-! ## Schema merger and classifier (tool-router.ts) -/

/-- The mutable fields of `ToolRouter`: the merged list and the two
classification sets (JS `Set`s, i.e. insertion-ordered without
duplicates). -/
structure RouterState where
  mergedTools : List ToolDefinition
  routableTools : List String
  fanOutTools : List String
deriving DecidableEq, Repr

/-- A fresh `ToolRouter`: empty merged list and empty sets. -/
def initialRouterState : RouterState :=
  { mergedTools := [], routableTools := [], fanOutTools := [] }

/-- The classification signal (`tool.inputSchema.properties?.['cluster']`
truthiness): the original schema declares a property named `cluster`. -/
def hasClusterProp (tool : ToolDefinition) : Bool :=
  match tool.inputSchema.properties with
  | some props => (props.lookup "cluster").isSome
  | none => false

/-- The `description` string written for the `cluster` property of a
routable tool. -/
def routableClusterDescription (clusterUrls : List String) : String :=
  "The Kusto cluster URL to query. Must be one of the available clusters: " ++
    joinComma clusterUrls

/-- The `description` string written for the `cluster` property of a
fan-out tool. -/
def fanOutClusterDescription (clusterUrls : List String) : String :=
  "Optional: specify a Kusto cluster URL to query only that cluster. " ++
    "If omitted, queries all clusters. Available: " ++ joinComma clusterUrls

/-- `_enhanceRoutableTool` (tool-router.ts lines 74-106): on a deep copy
of the input schema, overwrite the `cluster` property's `type`,
`description` and `enum` (spreading any pre-existing `cluster` property,
whose other fields survive), ensure `cluster` is in `required`, and
append the routed-marker to the tool description. -/
def enhanceRoutableTool (tool : ToolDefinition) (clusterUrls : List String) :
    ToolDefinition :=
  let props := tool.inputSchema.properties.getD []
  let existing := (props.lookup "cluster").getD {}
  let clusterProp : PropertySchema :=
    { existing with
      type := some "string",
      description := some (routableClusterDescription clusterUrls),
      enum := some clusterUrls }
  let req := tool.inputSchema.required.getD []
  { name := tool.name,
    description := some (match tool.description with
      | some d => d ++ " (Routed to the specified cluster)"
      | none => "Kusto tool routed to the specified cluster"),
    inputSchema :=
      { properties := some (setKey props "cluster" clusterProp),
        required := some (if "cluster" ∈ req then req else req ++ ["cluster"]),
        additionalProperties := tool.inputSchema.additionalProperties } }

/-- `_enhanceFanOutTool` (tool-router.ts lines 113-134): on a deep copy
of the input schema, replace the `cluster` property with a fresh optional
one (no spread of a pre-existing property), leave `required` alone, and
append the fan-out marker to the tool description. -/
def enhanceFanOutTool (tool : ToolDefinition) (clusterUrls : List String) :
    ToolDefinition :=
  let props := tool.inputSchema.properties.getD []
  let clusterProp : PropertySchema :=
    { type := some "string",
      description := some (fanOutClusterDescription clusterUrls),
      enum := some clusterUrls }
  { name := tool.name,
    description := some (match tool.description with
      | some d => d ++ " (Queries all available clusters unless a specific cluster is specified)"
      | none => "Lists Kusto clusters across all available connections"),
    inputSchema :=
      { properties := some (setKey props "cluster" clusterProp),
        required := tool.inputSchema.required,
        additionalProperties := tool.inputSchema.additionalProperties } }

/-- The classification loop of `refreshTools`: clear both sets, then add
each tool's name to `routable` if its schema has a `cluster` property,
else to `fanOut`. -/
def classifyTools (baseTools : List ToolDefinition) :
    List String × List String :=
  baseTools.foldl
    (fun acc tool =>
      if hasClusterProp tool then (addToSet acc.1 tool.name, acc.2)
      else (acc.1, addToSet acc.2 tool.name))
    ([], [])

/-- `refreshTools` (tool-router.ts lines 29-66).  `baseTools` is
`getToolDefinitions()` of the downstream manager and `clusterUrls` its
`getClusterUrls()`.  On an empty base list the source logs a warning,
clears `_mergedTools` and returns early — before the classification
loop, so `_routableTools` and `_fanOutTools` keep their old contents. -/
def refreshTools (baseTools : List ToolDefinition) (clusterUrls : List String)
    (st : RouterState) : RouterState :=
  if baseTools.isEmpty then
    { st with mergedTools := [] }
  else
    let cls := classifyTools baseTools
    { mergedTools := baseTools.map (fun tool =>
        if tool.name ∈ cls.1 then enhanceRoutableTool tool clusterUrls
        else enhanceFanOutTool tool clusterUrls),
      routableTools := cls.1,
      fanOutTools := cls.2 }

/-! ## Dispatch router (tool-router.ts, routeCall and helpers) -/

/-- What one `routeCall` decision does: either answer directly with a
synthesized result, or delegate to the supervisor's call-on-one or
call-on-all with the forwarded arguments. -/
inductive RouteAction
  | result (r : ToolCallResult)
  | callOne (clusterUrl toolName : String) (args : Args)
  | callAll (toolName : String) (args : Args)
deriving DecidableEq, Repr

/-- `{ ...args }` followed by `delete forwardArgs['cluster']`: the
original arguments with the `cluster` key removed, in order. -/
def stripClusterArg (args : Args) : Args :=
  args.filter (fun p => ¬ p.1 = "cluster")

/-- `_routeToCluster` (tool-router.ts lines 181-224): require a truthy
`cluster` argument, normalize it, demand an exact match among the
configured URLs, and delegate with the arguments unchanged. -/
def routeToCluster (clusterUrls : List String) (toolName : String)
    (args : Args) : RouteAction :=
  if (args.lookup "cluster").getD "" = "" then
    RouteAction.result
      { content := [textContent ("Error: The \"cluster\" parameter is required for tool \"" ++
          toolName ++ "\". Available clusters: " ++ joinComma clusterUrls)],
        isError := true }
  else if normalizeClusterUrl ((args.lookup "cluster").getD "") ∈ clusterUrls then
    RouteAction.callOne (normalizeClusterUrl ((args.lookup "cluster").getD ""))
      toolName args
  else
    RouteAction.result
      { content := [textContent ("Error: Cluster \"" ++ (args.lookup "cluster").getD "" ++
          "\" is not configured. Available clusters: " ++ joinComma clusterUrls)],
        isError := true }

/-- `_routeFanOut` (tool-router.ts lines 229-268): with a truthy
`cluster` argument route to that one endpoint, else fan out to all; in
both branches the synthetic `cluster` key is stripped from the forwarded
arguments. -/
def routeFanOut (clusterUrls : List String) (toolName : String)
    (args : Args) : RouteAction :=
  if (args.lookup "cluster").getD "" = "" then
    RouteAction.callAll toolName (stripClusterArg args)
  else if normalizeClusterUrl ((args.lookup "cluster").getD "") ∈ clusterUrls then
    RouteAction.callOne (normalizeClusterUrl ((args.lookup "cluster").getD ""))
      toolName (stripClusterArg args)
  else
    RouteAction.result
      { content := [textContent ("Error: Cluster \"" ++ (args.lookup "cluster").getD "" ++
          "\" is not configured. Available clusters: " ++ joinComma clusterUrls)],
        isError := true }

/-- Text of the unknown-tool error result in `routeCall`. -/
def unknownToolText (st : RouterState) (toolName : String) : String :=
  "Error: Unknown tool \"" ++ toolName ++ "\". Available tools: " ++
    joinComma (st.mergedTools.map ToolDefinition.name)

/-- `routeCall` (tool-router.ts lines 146-176): routable tools go to
`_routeToCluster`, fan-out tools to `_routeFanOut`; an unknown tool is
optimistically routed when `args['cluster']` is truthy and otherwise
answered with a textual unknown-tool error. -/
def routeCall (st : RouterState) (clusterUrls : List String)
    (toolName : String) (args : Args) : RouteAction :=
  if toolName ∈ st.routableTools then
    routeToCluster clusterUrls toolName args
  else if toolName ∈ st.fanOutTools then
    routeFanOut clusterUrls toolName args
  else if (args.lookup "cluster").getD "" ≠ "" then
    routeToCluster clusterUrls toolName args
  else
    RouteAction.result
      { content := [textContent (unknownToolText st toolName)], isError := true }

/-! ## Health loop backoff (health-monitor.ts) -/

/-- The reconnect bookkeeping of `HealthMonitor`: `reconnectBackoffs`
maps an endpoint to its stored backoff in seconds; `reconnectTimers`
maps an endpoint with a pending timer to the `currentBackoff` value the
armed callback captured (the timer's delay is that value in seconds —
`backoffMs = currentBackoff * 1000`). -/
structure HealthState where
  reconnectBackoffs : List (String × Nat)
  reconnectTimers : List (String × Nat)
  running : Bool
deriving DecidableEq, Repr

/-- `_scheduleReconnect` (health-monitor.ts lines 127-178), up to the
arming of the timer: idempotent when a timer is already pending, else
arm a timer for `backoffs.get(url) ?? 1` seconds. -/
def scheduleReconnect (hm : HealthState) (clusterUrl : String) : HealthState :=
  if (hm.reconnectTimers.lookup clusterUrl).isSome then hm
  else
    let currentBackoff := (hm.reconnectBackoffs.lookup clusterUrl).getD 1
    { hm with reconnectTimers := hm.reconnectTimers ++ [(clusterUrl, currentBackoff)] }

/-- The delay, in seconds, of the pending reconnect timer for an endpoint. -/
def scheduledDelaySeconds (hm : HealthState) (clusterUrl : String) : Option Nat :=
  hm.reconnectTimers.lookup clusterUrl

/-- The timer callback inside `_scheduleReconnect` (health-monitor.ts
lines 140-170), with the reconnect outcome abstracted by `success`:
remove the timer, abort if stopped, clear the backoff on success, and on
failure store `min(currentBackoff * 2, maxReconnectBackoffSeconds)` and
schedule the next attempt. -/
def fireReconnectTimer (maxReconnectBackoffSeconds : Nat) (hm : HealthState)
    (clusterUrl : String) (success : Bool) : HealthState :=
  match hm.reconnectTimers.lookup clusterUrl with
  | none => hm
  | some currentBackoff =>
    let hm1 := { hm with reconnectTimers := eraseKey hm.reconnectTimers clusterUrl }
    if hm1.running = false then hm1
    else if success then
      { hm1 with reconnectBackoffs := eraseKey hm1.reconnectBackoffs clusterUrl }
    else
      let nextBackoff := min (currentBackoff * 2) maxReconnectBackoffSeconds
      scheduleReconnect
        { hm1 with reconnectBackoffs := setKey hm1.reconnectBackoffs clusterUrl nextBackoff }
        clusterUrl

/-- The successful-ping branch of `_checkAll` (health-monitor.ts line
110): clear any stored backoff for the endpoint. -/
def clearBackoffOnPingSuccess (hm : HealthState) (clusterUrl : String) : HealthState :=
  { hm with reconnectBackoffs := eraseKey hm.reconnectBackoffs clusterUrl }

/-! ## Helper lemmas: characters, trimming, stripping -/

theorem lowerChar_lowerChar (c : Char) : lowerChar (lowerChar c) = lowerChar c := by
  unfold lowerChar
  by_cases h : 'A' ≤ c ∧ c ≤ 'Z'
  · simp only [h, if_true]
    have hle : c.toNat ≤ 90 := by
      have h2 := h.2
      rw [Char.le_def] at h2
      exact h2
    have hv : Nat.isValidChar (c.toNat + 32) := Or.inl (by omega)
    have ht : (Char.ofNat (c.toNat + 32)).toNat = c.toNat + 32 := by
      unfold Char.ofNat
      rw [dif_pos hv]
      simp [Char.ofNatAux, Char.toNat, UInt32.toNat]
    have hn : ¬ ('A' ≤ Char.ofNat (c.toNat + 32) ∧ Char.ofNat (c.toNat + 32) ≤ 'Z') := by
      intro hc
      have h3 := hc.2
      rw [Char.le_def] at h3
      have h90 : (Char.ofNat (c.toNat + 32)).toNat ≤ 90 := h3
      have hge : 65 ≤ c.toNat := by
        have h1 := h.1
        rw [Char.le_def] at h1
        exact h1
      omega
    simp [hn]
  · simp [h]

theorem dropWhile_head_false {α : Type} (p : α → Bool) (l : List α) :
    ∀ c ∈ (l.dropWhile p).head?, p c = false := by
  induction l with
  | nil => intro c hc; simp at hc
  | cons a t ih =>
    intro c hc
    rw [List.dropWhile_cons] at hc
    by_cases h : p a
    · simp only [h, if_true] at hc; exact ih c hc
    · simp only [h] at hc
      simp at hc
      rw [← hc]
      exact eq_false_of_ne_true h

theorem dropWhile_eq_self_of_head {α : Type} (p : α → Bool) (l : List α)
    (h : ∀ c ∈ l.head?, p c = false) : l.dropWhile p = l := by
  cases l with
  | nil => rfl
  | cons a t =>
    rw [List.dropWhile_cons]
    have := h a (by simp)
    simp [this]

theorem jsTrim_eq_self (l : List Char)
    (h1 : ∀ c ∈ l.head?, c.isWhitespace = false)
    (h2 : ∀ c ∈ l.getLast?, c.isWhitespace = false) : jsTrim l = l := by
  unfold jsTrim
  rw [dropWhile_eq_self_of_head _ _ h1]
  rw [dropWhile_eq_self_of_head _ _ (by simpa [List.head?_reverse] using h2)]
  exact List.reverse_reverse l

theorem stripTrailingSlashes_eq_self (l : List Char)
    (h : ∀ c ∈ l.getLast?, (c = '/') = False) : stripTrailingSlashes l = l := by
  unfold stripTrailingSlashes
  rw [dropWhile_eq_self_of_head]
  · exact List.reverse_reverse l
  · intro c hc
    rw [List.head?_reverse] at hc
    simp [h c hc]

theorem stripTrailingSlashes_getLast (l : List Char) :
    ∀ c ∈ (stripTrailingSlashes l).getLast?, (c = '/') = False := by
  intro c hc
  unfold stripTrailingSlashes at hc
  rw [List.getLast?_reverse] at hc
  have := dropWhile_head_false (fun c => c = '/') l.reverse c hc
  simp at this
  simp [this]

theorem stripTrailingSlashes_isPrefix (l : List Char) :
    stripTrailingSlashes l <+: l := by
  unfold stripTrailingSlashes
  have h := List.dropWhile_suffix (l := l.reverse) (fun c => c = '/')
  have := List.reverse_prefix.mpr h
  simpa using this

theorem normalizeClusterUrl_eq_self (s : String)
    (hpre : ("https://".data.isPrefixOf s.data || "http://".data.isPrefixOf s.data) = true)
    (hlast : ∀ c ∈ s.data.getLast?, c.isWhitespace = false)
    (hlower : ∀ c ∈ s.data, lowerChar c = c)
    (hslash : ∀ c ∈ s.data.getLast?, (c = '/') = False) :
    normalizeClusterUrl s = s := by
  have hhead : ∀ c ∈ s.data.head?, c.isWhitespace = false := by
    intro c hc
    rcases Bool.or_eq_true_iff.mp hpre with h | h
    · rcases List.isPrefixOf_iff_prefix.mp h with ⟨t, ht⟩
      rw [← ht] at hc
      simp at hc
      rw [← hc]
      decide
    · rcases List.isPrefixOf_iff_prefix.mp h with ⟨t, ht⟩
      rw [← ht] at hc
      simp at hc
      rw [← hc]
      decide
  have htrim : jsTrim s.data = s.data := jsTrim_eq_self s.data hhead hlast
  have hmap : s.data.map lowerChar = s.data := by
    rw [List.map_congr_left hlower]
    exact List.map_id s.data
  unfold normalizeClusterUrl
  simp only [htrim, hmap, hpre, if_true]
  rw [stripTrailingSlashes_eq_self s.data hslash]

theorem lowerChar_scheme : ∀ c ∈ "https://".data, lowerChar c = c := by decide

theorem normalizeClusterUrl_idem (x : String)
    (h1 : ("https://".data.isPrefixOf (normalizeClusterUrl x).data ||
          "http://".data.isPrefixOf (normalizeClusterUrl x).data) = true)
    (h2 : ∀ c ∈ (normalizeClusterUrl x).data.getLast?, c.isWhitespace = false) :
    normalizeClusterUrl (normalizeClusterUrl x) = normalizeClusterUrl x := by
  apply normalizeClusterUrl_eq_self _ h1 h2
  · intro c hc
    have hmem := (stripTrailingSlashes_isPrefix
      (if ("https://".data.isPrefixOf ((jsTrim x.data).map lowerChar) ||
          "http://".data.isPrefixOf ((jsTrim x.data).map lowerChar)) = true then
        (jsTrim x.data).map lowerChar
      else "https://".data ++ (jsTrim x.data).map lowerChar)).subset hc
    have hfix : ∀ a ∈ (jsTrim x.data).map lowerChar, lowerChar a = a := by
      intro a ha
      rcases List.mem_map.mp ha with ⟨b, _, hb⟩
      rw [← hb]
      exact lowerChar_lowerChar b
    by_cases hcond : ("https://".data.isPrefixOf ((jsTrim x.data).map lowerChar) ||
        "http://".data.isPrefixOf ((jsTrim x.data).map lowerChar)) = true
    · rw [if_pos hcond] at hmem
      exact hfix c hmem
    · rw [if_neg hcond] at hmem
      rcases List.mem_append.mp hmem with h | h
      · exact lowerChar_scheme c h
      · exact hfix c h
  · intro c hc
    exact stripTrailingSlashes_getLast _ c hc

/-! ## Helper lemmas: association lists, sets, joins -/

theorem lookup_cons_ne {β : Type} (k : String) (p : String × β)
    (rest : List (String × β)) (h : ¬ p.1 = k) :
    List.lookup k (p :: rest) = List.lookup k rest := by
  cases p with
  | mk a b =>
    simp only at h
    have hb : (k == a) = false := beq_eq_false_iff_ne.mpr (fun he => h he.symm)
    simp [List.lookup, hb]

theorem lookup_setKey_self {β : Type} (m : List (String × β)) (k : String) (v : β) :
    (setKey m k v).lookup k = some v := by
  induction m with
  | nil => simp [setKey, List.lookup]
  | cons p rest ih =>
    by_cases h : p.1 = k
    · simp [setKey, h, List.lookup]
    · simp only [setKey, h, if_false]
      rw [lookup_cons_ne _ _ _ h]
      exact ih

theorem lookup_eraseKey_self {β : Type} (m : List (String × β)) (k : String)
    (hnd : (m.map Prod.fst).Nodup) : (eraseKey m k).lookup k = none := by
  induction m with
  | nil => simp [eraseKey, List.lookup]
  | cons p rest ih =>
    simp only [List.map_cons, List.nodup_cons] at hnd
    by_cases h : p.1 = k
    · simp only [eraseKey, h, if_true]
      rw [List.lookup_eq_none_iff]
      intro q hq
      have hq1 : q.1 ∈ rest.map Prod.fst := List.mem_map.mpr ⟨q, hq, rfl⟩
      have hne : ¬ k = q.1 := by
        intro he
        apply hnd.1
        rw [h, he]
        exact hq1
      simpa using hne
    · simp only [eraseKey, h, if_false]
      rw [lookup_cons_ne _ _ _ h]
      exact ih hnd.2

theorem mem_addToSet (s : List String) (x y : String) :
    y ∈ addToSet s x ↔ y ∈ s ∨ y = x := by
  unfold addToSet
  by_cases h : x ∈ s
  · simp only [h, if_true]
    constructor
    · exact Or.inl
    · rintro (hy | hy)
      · exact hy
      · rw [hy]; exact h
  · simp [h]

theorem joinComma_substring_of_mem (u : String) (l : List String) (h : u ∈ l) :
    u.data <:+: (joinComma l).data := by
  induction l with
  | nil => simp at h
  | cons x xs ih =>
    cases xs with
    | nil =>
      simp at h
      rw [h]
      exact List.infix_rfl
    | cons y ys =>
      rcases List.mem_cons.mp h with h1 | h1
      · subst h1
        show u.data <:+: (u ++ ", " ++ joinComma (y :: ys)).data
        rw [String.data_append, String.data_append]
        exact ((List.prefix_append _ _).trans (List.prefix_append _ _)).isInfix
      · have hi := ih h1
        show u.data <:+: (x ++ ", " ++ joinComma (y :: ys)).data
        rw [String.data_append]
        exact hi.trans (List.suffix_append _ _).isInfix

theorem mem_infix_of_append_right (u p q : String) (h : u.data <:+: q.data) :
    u.data <:+: (p ++ q).data := by
  rw [String.data_append]
  exact h.trans (List.suffix_append _ _).isInfix

/-! ## Claim C8 — idempotence and concrete behaviour of URL normalization -/

/-- C8 (amended): `normalizeClusterUrl` is idempotent for every input
whose normalized form still starts with `http://` or `https://` and does
not end in a whitespace character, and it maps the five concrete inputs
of the claim exactly as stated.  (Unrestricted idempotence is refuted by
`C8_normalization_counterexample`: stripping trailing slashes can eat
the scheme's own slashes, e.g. `normalizeClusterUrl "" = "https:"`,
which renormalizes to `"https://https:"`.) -/
theorem C8_normalization_spec :
    (∀ x : String,
      ("https://".data.isPrefixOf (normalizeClusterUrl x).data ||
       "http://".data.isPrefixOf (normalizeClusterUrl x).data) = true →
      ((normalizeClusterUrl x).data.getLast?).all (fun c => ! c.isWhitespace) = true →
      normalizeClusterUrl (normalizeClusterUrl x) = normalizeClusterUrl x) ∧
    normalizeClusterUrl "https://MyCluster.Kusto.Windows.Net" =
      "https://mycluster.kusto.windows.net" ∧
    normalizeClusterUrl "https://mycluster.kusto.windows.net/" =
      "https://mycluster.kusto.windows.net" ∧
    normalizeClusterUrl "mycluster.kusto.windows.net" =
      "https://mycluster.kusto.windows.net" ∧
    normalizeClusterUrl "  https://mycluster.kusto.windows.net  " =
      "https://mycluster.kusto.windows.net" ∧
    normalizeClusterUrl "http://x" = "http://x" := by
  refine ⟨?_, by decide, by decide, by decide, by decide, by decide⟩
  intro x h1 h2
  apply normalizeClusterUrl_idem x h1
  intro c hc
  cases ho : (normalizeClusterUrl x).data.getLast? with
  | none => rw [ho] at hc; simp at hc
  | some a =>
    rw [ho] at hc
    simp at hc
    subst hc
    rw [ho] at h2
    simpa using h2

/-- Witness for C8: the conditional idempotence applied at a concrete
input, with both hypotheses discharged by evaluation. -/
theorem C8_normalization_witness :
    normalizeClusterUrl (normalizeClusterUrl "https://MyCluster.Kusto.Windows.Net") =
      normalizeClusterUrl "https://MyCluster.Kusto.Windows.Net" :=
  C8_normalization_spec.1 "https://MyCluster.Kusto.Windows.Net" (by decide) (by decide)

/-- C8 counterexample: normalization is NOT idempotent for every input
string — the empty string normalizes to `"https:"`, which normalizes
again to `"https://https:"`. -/
theorem C8_normalization_counterexample :
    ¬ (normalizeClusterUrl (normalizeClusterUrl "") = normalizeClusterUrl "") := by
  decide

/-! ## Claim C1 — classification after refreshTools -/

theorem classifyTools_fold_mem (l : List ToolDefinition)
    (acc : List String × List String) (name : String) :
    (name ∈ (l.foldl
        (fun acc tool =>
          if hasClusterProp tool then (addToSet acc.1 tool.name, acc.2)
          else (acc.1, addToSet acc.2 tool.name)) acc).1 ↔
      name ∈ acc.1 ∨ ∃ t ∈ l, t.name = name ∧ hasClusterProp t = true) ∧
    (name ∈ (l.foldl
        (fun acc tool =>
          if hasClusterProp tool then (addToSet acc.1 tool.name, acc.2)
          else (acc.1, addToSet acc.2 tool.name)) acc).2 ↔
      name ∈ acc.2 ∨ ∃ t ∈ l, t.name = name ∧ hasClusterProp t = false) := by
  induction l generalizing acc with
  | nil => simp
  | cons a rest ih =>
    rw [List.foldl_cons]
    by_cases ha : hasClusterProp a
    · constructor
      · rw [if_pos ha, (ih _).1, mem_addToSet]
        constructor
        · rintro ((h | h) | ⟨t, ht, hn, hc⟩)
          · exact Or.inl h
          · exact Or.inr ⟨a, List.mem_cons_self a rest, h.symm, ha⟩
          · exact Or.inr ⟨t, List.mem_cons_of_mem a ht, hn, hc⟩
        · rintro (h | ⟨t, ht, hn, hc⟩)
          · exact Or.inl (Or.inl h)
          · rcases List.mem_cons.mp ht with he | he
            · exact Or.inl (Or.inr (by rw [he] at hn; exact hn.symm))
            · exact Or.inr ⟨t, he, hn, hc⟩
      · rw [if_pos ha, (ih _).2]
        constructor
        · rintro (h | ⟨t, ht, hn, hc⟩)
          · exact Or.inl h
          · exact Or.inr ⟨t, List.mem_cons_of_mem a ht, hn, hc⟩
        · rintro (h | ⟨t, ht, hn, hc⟩)
          · exact Or.inl h
          · rcases List.mem_cons.mp ht with he | he
            · rw [he] at hc; rw [ha] at hc; cases hc
            · exact Or.inr ⟨t, he, hn, hc⟩
    · have ha' : hasClusterProp a = false := eq_false_of_ne_true ha
      constructor
      · rw [if_neg ha, (ih _).1]
        constructor
        · rintro (h | ⟨t, ht, hn, hc⟩)
          · exact Or.inl h
          · exact Or.inr ⟨t, List.mem_cons_of_mem a ht, hn, hc⟩
        · rintro (h | ⟨t, ht, hn, hc⟩)
          · exact Or.inl h
          · rcases List.mem_cons.mp ht with he | he
            · rw [he] at hc; rw [ha'] at hc; cases hc
            · exact Or.inr ⟨t, he, hn, hc⟩
      · rw [if_neg ha, (ih _).2, mem_addToSet]
        constructor
        · rintro ((h | h) | ⟨t, ht, hn, hc⟩)
          · exact Or.inl h
          · exact Or.inr ⟨a, List.mem_cons_self a rest, h.symm, ha'⟩
          · exact Or.inr ⟨t, List.mem_cons_of_mem a ht, hn, hc⟩
        · rintro (h | ⟨t, ht, hn, hc⟩)
          · exact Or.inl (Or.inl h)
          · rcases List.mem_cons.mp ht with he | he
            · exact Or.inl (Or.inr (by rw [he] at hn; exact hn.symm))
            · exact Or.inr ⟨t, he, hn, hc⟩

theorem mem_classifyTools_fst (baseTools : List ToolDefinition) (name : String) :
    name ∈ (classifyTools baseTools).1 ↔
      ∃ t ∈ baseTools, t.name = name ∧ hasClusterProp t = true := by
  unfold classifyTools
  rw [(classifyTools_fold_mem baseTools ([], []) name).1]
  simp

theorem mem_classifyTools_snd (baseTools : List ToolDefinition) (name : String) :
    name ∈ (classifyTools baseTools).2 ↔
      ∃ t ∈ baseTools, t.name = name ∧ hasClusterProp t = false := by
  unfold classifyTools
  rw [(classifyTools_fold_mem baseTools ([], []) name).2]
  simp

/-- C1 (amended): after `refreshTools` on a NON-EMPTY source tool list
with pairwise distinct tool names, a name is in `routable` iff its tool's
original input schema declares a `cluster` property, it is in `fanOut`
iff its tool's schema does not, and the two sets are disjoint.  When the
source tool list is EMPTY, however, only the merged tool list is emptied:
the early return of `refreshTools` skips the classification loop, so
`routable` and `fanOut` keep their previous contents (the claim's
assertion that both sets become empty is refuted by
`C1_classification_counterexample`). -/
theorem C1_refreshTools_classification (baseTools : List ToolDefinition)
    (clusterUrls : List String) (st : RouterState)
    (hnd : (baseTools.map ToolDefinition.name).Nodup) :
    (baseTools ≠ [] →
      (∀ name, name ∈ (refreshTools baseTools clusterUrls st).routableTools ↔
        ∃ t ∈ baseTools, t.name = name ∧ hasClusterProp t = true) ∧
      (∀ name, name ∈ (refreshTools baseTools clusterUrls st).fanOutTools ↔
        ∃ t ∈ baseTools, t.name = name ∧ hasClusterProp t = false) ∧
      (∀ name, ¬ (name ∈ (refreshTools baseTools clusterUrls st).routableTools ∧
        name ∈ (refreshTools baseTools clusterUrls st).fanOutTools))) ∧
    (baseTools = [] →
      (refreshTools baseTools clusterUrls st).mergedTools = [] ∧
      (refreshTools baseTools clusterUrls st).routableTools = st.routableTools ∧
      (refreshTools baseTools clusterUrls st).fanOutTools = st.fanOutTools) := by
  constructor
  · intro hne
    have hb : baseTools.isEmpty = false := by
      cases baseTools with
      | nil => exact absurd rfl hne
      | cons a l => rfl
    have hr : (refreshTools baseTools clusterUrls st).routableTools =
        (classifyTools baseTools).1 := by
      unfold refreshTools
      rw [hb]
      simp only [Bool.false_eq_true, if_false]
    have hf : (refreshTools baseTools clusterUrls st).fanOutTools =
        (classifyTools baseTools).2 := by
      unfold refreshTools
      rw [hb]
      simp only [Bool.false_eq_true, if_false]
    refine ⟨?_, ?_, ?_⟩
    · intro name
      rw [hr]
      exact mem_classifyTools_fst baseTools name
    · intro name
      rw [hf]
      exact mem_classifyTools_snd baseTools name
    · intro name hboth
      rw [hr] at hboth
      rw [hf] at hboth
      rcases (mem_classifyTools_fst baseTools name).mp hboth.1 with ⟨t1, ht1, hn1, hc1⟩
      rcases (mem_classifyTools_snd baseTools name).mp hboth.2 with ⟨t2, ht2, hn2, hc2⟩
      have : t1 = t2 :=
        List.inj_on_of_nodup_map hnd ht1 ht2 (by rw [hn1, hn2])
      rw [this, hc2] at hc1
      cases hc1
  · intro he
    subst he
    exact ⟨rfl, rfl, rfl⟩

/-- A routable sample tool (its original schema declares `cluster`). -/
def sampleRoutableTool : ToolDefinition :=
  { name := "kusto_query", description := some "Execute a KQL query",
    inputSchema :=
      { properties := some [("cluster", { type := some "string" }),
          ("query", { type := some "string" })],
        required := some ["cluster", "query"] } }

/-- A fan-out sample tool (no `cluster` property in its original schema). -/
def sampleFanOutTool : ToolDefinition :=
  { name := "kusto_cluster_list", description := some "List available Kusto clusters",
    inputSchema :=
      { properties := some [("subscriptionId", { type := some "string" })],
        required := some ["subscriptionId"] } }

/-- Witness for C1: the classification equivalences applied to a concrete
two-tool refresh. -/
theorem C1_refreshTools_witness :
    "kusto_query" ∈ (refreshTools [sampleRoutableTool, sampleFanOutTool]
      ["https://c1.example"] initialRouterState).routableTools ↔
    ∃ t ∈ [sampleRoutableTool, sampleFanOutTool],
      t.name = "kusto_query" ∧ hasClusterProp t = true :=
  ((C1_refreshTools_classification [sampleRoutableTool, sampleFanOutTool]
    ["https://c1.example"] initialRouterState (by decide)).1 (by decide)).1 "kusto_query"

/-- C1 counterexample: refresh a router over one routable tool, then
refresh again with an empty source list — the merged list empties but
`routable` still contains the stale name, contradicting the claim that
both sets are empty whenever the source list is empty. -/
theorem C1_classification_counterexample :
    ¬ ((refreshTools [] ["https://c1.example"]
        (refreshTools [sampleRoutableTool] ["https://c1.example"]
          initialRouterState)).routableTools = []) := by
  decide

/-! ## Claim C3 — schema rewriting of routable tools -/

/-- C3: for every routable tool and endpoint list, the rewritten tool's
`cluster` property has `type = "string"`, `enum` equal to the full
configured URL list, and a description that names every available URL
(each URL occurs in the description text); `cluster` is in the rewritten
`required` list; and the routed-marker phrase is appended to the tool's
description whenever the tool has one.  The rewrite is a pure function of
the original tool — in this embedding `structuredClone`'s non-mutation is
inherent: the input `ToolDefinition` value is immutable and unchanged. -/
theorem C3_enhanceRoutableTool_spec (tool : ToolDefinition) (clusterUrls : List String) :
    (∃ extra, ((enhanceRoutableTool tool clusterUrls).inputSchema.properties.getD
        []).lookup "cluster" =
      some { type := some "string",
             description := some (routableClusterDescription clusterUrls),
             enum := some clusterUrls,
             others := extra }) ∧
    (∀ u ∈ clusterUrls, u.data <:+: (routableClusterDescription clusterUrls).data) ∧
    "cluster" ∈ (enhanceRoutableTool tool clusterUrls).inputSchema.required.getD [] ∧
    (∀ d, tool.description = some d →
      (enhanceRoutableTool tool clusterUrls).description =
        some (d ++ " (Routed to the specified cluster)")) := by
  refine ⟨?_, ?_, ?_, ?_⟩
  · refine ⟨((tool.inputSchema.properties.getD []).lookup "cluster").getD {} |>.others, ?_⟩
    show (setKey (tool.inputSchema.properties.getD []) "cluster" _).lookup "cluster" = _
    rw [lookup_setKey_self]
  · intro u hu
    unfold routableClusterDescription
    exact mem_infix_of_append_right u _ _ (joinComma_substring_of_mem u clusterUrls hu)
  · show "cluster" ∈ (if "cluster" ∈ tool.inputSchema.required.getD [] then
        tool.inputSchema.required.getD []
      else tool.inputSchema.required.getD [] ++ ["cluster"])
    by_cases h : "cluster" ∈ tool.inputSchema.required.getD []
    · rw [if_pos h]; exact h
    · rw [if_neg h]; exact List.mem_append_right _ (by simp)
  · intro d hd
    unfold enhanceRoutableTool
    rw [hd]

/-- Witness for C3: the description-append clause applied to a concrete
routable tool. -/
theorem C3_enhanceRoutableTool_witness :
    (enhanceRoutableTool sampleRoutableTool
      ["https://c1.example", "https://c2.example"]).description =
      some "Execute a KQL query (Routed to the specified cluster)" :=
  (C3_enhanceRoutableTool_spec sampleRoutableTool
    ["https://c1.example", "https://c2.example"]).2.2.2 "Execute a KQL query" rfl

/-! ## Claim C2 — call-on-one with an unavailable endpoint -/

/-- C2 (amended): when the endpoint is unknown, `callTool` answers with
`isError = true` and a text that lists every available endpoint URL,
without any downstream call; when the endpoint is known but not in
`Connected` status, it answers with `isError = true` and a text naming
that endpoint and its status — but NOT listing the available endpoints
(the claim's listing assertion for this branch is refuted by
`C2_callTool_counterexample`).  In both branches the result is
independent of the downstream oracle, i.e. no downstream call is made. -/
theorem C2_callTool_unavailable (ds : DSMap)
    (invoke invoke' : String → String → Args → Except String ToolCallResult)
    (clusterUrl toolName : String) (args : Args) :
    (ds.lookup (normalizeClusterUrl clusterUrl) = none →
      callTool ds invoke clusterUrl toolName args =
        { content := [textContent (unknownClusterText ds clusterUrl)],
          isError := true } ∧
      (∀ u ∈ getClusterUrls ds, u.data <:+: (unknownClusterText ds clusterUrl).data)) ∧
    (∀ st, ds.lookup (normalizeClusterUrl clusterUrl) = some st →
      st.status ≠ ConnectionStatus.Connected →
      callTool ds invoke clusterUrl toolName args =
        { content := [textContent (notConnectedText clusterUrl st.status)],
          isError := true }) ∧
    ((ds.lookup (normalizeClusterUrl clusterUrl) = none ∨
      (∃ st, ds.lookup (normalizeClusterUrl clusterUrl) = some st ∧
        st.status ≠ ConnectionStatus.Connected)) →
      callTool ds invoke clusterUrl toolName args =
        callTool ds invoke' clusterUrl toolName args) := by
  refine ⟨?_, ?_, ?_⟩
  · intro hnone
    constructor
    · unfold callTool
      rw [hnone]
    · intro u hu
      unfold unknownClusterText
      exact mem_infix_of_append_right u _ _ (joinComma_substring_of_mem u _ hu)
  · intro st hst hns
    unfold callTool
    rw [hst]
    simp only
    rw [if_pos (Or.inr hns)]
  · intro h
    rcases h with hnone | ⟨st, hst, hns⟩
    · unfold callTool
      rw [hnone]
    · unfold callTool
      rw [hst]
      simp only
      rw [if_pos (Or.inr hns), if_pos (Or.inr hns)]

/-- A known endpoint in `Failed` status (no live client). -/
def cexFailedState : DownstreamState :=
  { identity := "", client := false, status := ConnectionStatus.Failed }

/-- A second, healthy endpoint. -/
def cexConnectedState : DownstreamState :=
  { identity := "", client := true, status := ConnectionStatus.Connected }

/-- A two-endpoint supervisor state with one failed and one connected endpoint. -/
def cexMap : DSMap :=
  [("https://c1.example", cexFailedState), ("https://c2.example", cexConnectedState)]

/-- C2 counterexample: calling the known-but-`Failed` endpoint yields the
not-connected error, whose text does NOT contain the other available
endpoint URL `https://c2.example` — so the error text does not list the
available endpoints, contrary to the claim. -/
theorem C2_callTool_counterexample :
    callTool cexMap (fun _ _ _ => Except.ok { content := [], isError := false })
      "https://c1.example" "kusto_query" [] =
      { content := [textContent (notConnectedText "https://c1.example"
          ConnectionStatus.Failed)],
        isError := true } ∧
    "https://c2.example" ∈ getClusterUrls cexMap ∧
    ¬ ("https://c2.example".data <:+:
        (notConnectedText "https://c1.example" ConnectionStatus.Failed).data) := by
  refine ⟨by decide, by decide, by decide⟩

/-- Witness for C2: the unknown-endpoint branch applied to a concrete
state, with the lookup hypothesis discharged by evaluation. -/
theorem C2_callTool_witness :
    callTool cexMap (fun _ _ _ => Except.ok { content := [], isError := false })
      "https://other.example" "kusto_query" [] =
      { content := [textContent (unknownClusterText cexMap "https://other.example")],
        isError := true } :=
  ((C2_callTool_unavailable cexMap
    (fun _ _ _ => Except.ok { content := [], isError := false })
    (fun _ _ _ => Except.ok { content := [], isError := false })
    "https://other.example" "kusto_query" []).1 (by decide)).1

/-! ## Claim C4 — arguments forwarded by the dispatch router -/

theorem lookup_stripClusterArg_none (args : Args) :
    (stripClusterArg args).lookup "cluster" = none := by
  unfold stripClusterArg
  induction args with
  | nil => rfl
  | cons p rest ih =>
    rw [List.filter_cons]
    by_cases h : p.1 = "cluster"
    · have hd : (decide ¬ p.1 = "cluster") = false := by simp [h]
      simp only [hd, Bool.false_eq_true, if_false]
      exact ih
    · have hd : (decide ¬ p.1 = "cluster") = true := by simp [h]
      simp only [hd]
      rw [if_pos trivial]
      rw [lookup_cons_ne _ _ _ h]
      exact ih

theorem lookup_stripClusterArg_ne (args : Args) (k : String) (hk : ¬ k = "cluster") :
    (stripClusterArg args).lookup k = args.lookup k := by
  unfold stripClusterArg
  induction args with
  | nil => rfl
  | cons p rest ih =>
    rw [List.filter_cons]
    by_cases h : p.1 = "cluster"
    · have hd : (decide ¬ p.1 = "cluster") = false := by simp [h]
      simp only [hd, Bool.false_eq_true, if_false]
      rw [ih, lookup_cons_ne]
      intro he
      rw [he] at h
      exact hk h
    · have hd : (decide ¬ p.1 = "cluster") = true := by simp [h]
      simp only [hd]
      rw [if_pos trivial]
      by_cases hpk : p.1 = k
      · cases p with
        | mk a b =>
          simp only at hpk
          subst hpk
          simp [List.lookup]
      · rw [lookup_cons_ne _ _ _ hpk, lookup_cons_ne _ _ _ hpk]
        exact ih

theorem routeToCluster_callOne_inv (clusterUrls : List String) (toolName : String)
    (args : Args) (c t : String) (a : Args)
    (h : routeToCluster clusterUrls toolName args = RouteAction.callOne c t a) :
    t = toolName ∧ a = args := by
  unfold routeToCluster at h
  by_cases hv : (args.lookup "cluster").getD "" = ""
  · rw [if_pos hv] at h; cases h
  · rw [if_neg hv] at h
    by_cases hm : normalizeClusterUrl ((args.lookup "cluster").getD "") ∈ clusterUrls
    · rw [if_pos hm] at h
      injection h with h1 h2 h3
      exact ⟨h2.symm, h3.symm⟩
    · rw [if_neg hm] at h; cases h

theorem routeFanOut_inv (clusterUrls : List String) (toolName : String)
    (args : Args) :
    (∀ c t a, routeFanOut clusterUrls toolName args = RouteAction.callOne c t a →
      t = toolName ∧ a = stripClusterArg args) ∧
    (∀ t a, routeFanOut clusterUrls toolName args = RouteAction.callAll t a →
      t = toolName ∧ a = stripClusterArg args) := by
  constructor
  · intro c t a h
    unfold routeFanOut at h
    by_cases hv : (args.lookup "cluster").getD "" = ""
    · rw [if_pos hv] at h; cases h
    · rw [if_neg hv] at h
      by_cases hm : normalizeClusterUrl ((args.lookup "cluster").getD "") ∈ clusterUrls
      · rw [if_pos hm] at h
        injection h with h1 h2 h3
        exact ⟨h2.symm, h3.symm⟩
      · rw [if_neg hm] at h; cases h
  · intro t a h
    unfold routeFanOut at h
    by_cases hv : (args.lookup "cluster").getD "" = ""
    · rw [if_pos hv] at h
      injection h with h1 h2
      exact ⟨h1.symm, h2.symm⟩
    · rw [if_neg hv] at h
      by_cases hm : normalizeClusterUrl ((args.lookup "cluster").getD "") ∈ clusterUrls
      · rw [if_pos hm] at h; cases h
      · rw [if_neg hm] at h; cases h

/-- C4: whenever `routeCall` delegates to the supervisor, a fan-out tool's
forwarded arguments are exactly the caller's original arguments with the
`cluster` key removed (all other keys and values unchanged — witnessed by
the lookup-preservation conjuncts), and a routable tool's arguments are
forwarded entirely unchanged, `cluster` included. -/
theorem C4_routeCall_forwarded_args (st : RouterState) (clusterUrls : List String)
    (toolName : String) (args : Args) :
    (toolName ∈ st.routableTools →
      ∀ c t a, routeCall st clusterUrls toolName args = RouteAction.callOne c t a →
        t = toolName ∧ a = args) ∧
    (toolName ∉ st.routableTools → toolName ∈ st.fanOutTools →
      (∀ c t a, routeCall st clusterUrls toolName args = RouteAction.callOne c t a →
        t = toolName ∧ a = stripClusterArg args) ∧
      (∀ t a, routeCall st clusterUrls toolName args = RouteAction.callAll t a →
        t = toolName ∧ a = stripClusterArg args)) ∧
    (stripClusterArg args).lookup "cluster" = none ∧
    (∀ k, ¬ k = "cluster" →
      (stripClusterArg args).lookup k = args.lookup k) := by
  refine ⟨?_, ?_, lookup_stripClusterArg_none args, ?_⟩
  · intro hmem c t a h
    unfold routeCall at h
    rw [if_pos hmem] at h
    exact routeToCluster_callOne_inv clusterUrls toolName args c t a h
  · intro hnr hf
    have hrw : routeCall st clusterUrls toolName args =
        routeFanOut clusterUrls toolName args := by
      unfold routeCall
      rw [if_neg hnr, if_pos hf]
    rw [hrw]
    exact routeFanOut_inv clusterUrls toolName args
  · intro k hk
    exact lookup_stripClusterArg_ne args k hk

/-- The router state produced by a refresh over the two sample tools. -/
def sampleRouterState : RouterState :=
  refreshTools [sampleRoutableTool, sampleFanOutTool] ["https://c1.example"]
    initialRouterState

/-- Witness for C4: a routable call forwards its arguments unchanged
(theorem applied at a concrete state, tool and argument map). -/
theorem C4_routeCall_witness :
    "kusto_query" = "kusto_query" ∧
    ([("cluster", "https://c1.example"), ("query", "Q")] : Args) =
      [("cluster", "https://c1.example"), ("query", "Q")] :=
  (C4_routeCall_forwarded_args sampleRouterState ["https://c1.example"]
    "kusto_query" [("cluster", "https://c1.example"), ("query", "Q")]).1
    (by decide) "https://c1.example" "kusto_query"
    [("cluster", "https://c1.example"), ("query", "Q")] (by decide)

/-! ## Claim C7 — routeCall on an unknown tool -/

theorem substring_of_append_parts (a b c d : String) :
    b.data <:+: (a ++ b ++ c ++ d).data := by
  refine ⟨a.data, c.data ++ d.data, ?_⟩
  simp [String.data_append]

/-- C7 (amended): for a tool name in neither classification set, when
`args.cluster` is present with a NON-EMPTY string value the call is
routed through `_routeToCluster` (optimistic passthrough); when the
`cluster` argument is absent — or present but the empty string, which is
falsy in JS, a case the claim as stated gets wrong (see
`C7_routeCall_unknown_counterexample`) — the result is a textual
unknown-tool error with `isError = true` whose text contains the tool's
name and every merged tool's name, and no supervisor call is made (the
action is a direct result). -/
theorem C7_routeCall_unknown (st : RouterState) (clusterUrls : List String)
    (toolName : String) (args : Args)
    (hr : toolName ∉ st.routableTools) (hf : toolName ∉ st.fanOutTools) :
    (∀ v, args.lookup "cluster" = some v → v ≠ "" →
      routeCall st clusterUrls toolName args =
        routeToCluster clusterUrls toolName args) ∧
    ((args.lookup "cluster" = none ∨ args.lookup "cluster" = some "") →
      routeCall st clusterUrls toolName args =
        RouteAction.result
          { content := [textContent (unknownToolText st toolName)],
            isError := true } ∧
      toolName.data <:+: (unknownToolText st toolName).data ∧
      (∀ t ∈ st.mergedTools,
        t.name.data <:+: (unknownToolText st toolName).data)) := by
  constructor
  · intro v hv hne
    unfold routeCall
    rw [if_neg hr, if_neg hf]
    rw [if_pos]
    rw [hv]
    simpa using hne
  · intro habs
    have hg : (args.lookup "cluster").getD "" = "" := by
      rcases habs with h | h
      · rw [h]; rfl
      · rw [h]; rfl
    refine ⟨?_, ?_, ?_⟩
    · unfold routeCall
      rw [if_neg hr, if_neg hf, if_neg]
      rw [hg]
      simp
    · unfold unknownToolText
      exact substring_of_append_parts _ _ _ _
    · intro t ht
      unfold unknownToolText
      exact mem_infix_of_append_right _ _ _
        (joinComma_substring_of_mem _ _ (List.mem_map.mpr ⟨t, ht, rfl⟩))

/-- Witness for C7: an unknown tool with a non-empty `cluster` argument
is dispatched exactly as `_routeToCluster` dispatches it. -/
theorem C7_routeCall_unknown_witness :
    routeCall initialRouterState ["https://c1.example"] "mystery"
      [("cluster", "https://c1.example")] =
    routeToCluster ["https://c1.example"] "mystery"
      [("cluster", "https://c1.example")] :=
  (C7_routeCall_unknown initialRouterState ["https://c1.example"] "mystery"
    [("cluster", "https://c1.example")] (by decide) (by decide)).1
    "https://c1.example" rfl (by decide)

/-- C7 counterexample: with the `cluster` argument PRESENT but equal to
the empty string (falsy in JS), the unknown tool is NOT routed through
route-to-one — the router answers with the unknown-tool error instead,
while `_routeToCluster` would answer with the cluster-required error. -/
theorem C7_routeCall_unknown_counterexample :
    ¬ (routeCall initialRouterState ["https://c1.example"] "mystery"
        [("cluster", "")] =
       routeToCluster ["https://c1.example"] "mystery" [("cluster", "")]) := by
  decide

/-! ## Claim C5 — ping -/

/-- C5: if the endpoint's record is not in `Connected` status, `ping`
returns `false` with the map unchanged, for EVERY downstream outcome —
i.e. without issuing the downstream ping.  On a Connected endpoint with
a live client: a successful ping refreshes `lastHeartbeat` to now and
zeroes `consecutiveFailures`, returning `true`; a failed or timed-out
ping returns `false`, increments `consecutiveFailures`, and sets the
status to `Disconnected` when the incremented counter reaches 3 and to
`Failed` otherwise. -/
theorem C5_ping_spec (ds : DSMap) (clusterUrl : String) (now : Nat) :
    (∀ st, ds.lookup (normalizeClusterUrl clusterUrl) = some st →
      st.status ≠ ConnectionStatus.Connected →
      ∀ outcome, ping ds clusterUrl outcome now = (false, ds)) ∧
    (∀ st, ds.lookup (normalizeClusterUrl clusterUrl) = some st →
      st.status = ConnectionStatus.Connected → st.client = true →
      ((ping ds clusterUrl true now).1 = true ∧
        (ping ds clusterUrl true now).2.lookup (normalizeClusterUrl clusterUrl) =
          some { st with lastHeartbeat := some now, consecutiveFailures := 0 }) ∧
      ((ping ds clusterUrl false now).1 = false ∧
        (ping ds clusterUrl false now).2.lookup (normalizeClusterUrl clusterUrl) =
          some { st with
            consecutiveFailures := st.consecutiveFailures + 1,
            status := (if 3 ≤ st.consecutiveFailures + 1 then
              ConnectionStatus.Disconnected else ConnectionStatus.Failed) })) := by
  constructor
  · intro st hst hns outcome
    unfold ping
    rw [hst]
    simp only
    rw [if_pos (Or.inr hns)]
  · intro st hst hconn hclient
    have hcond : ¬ (st.client = false ∨ st.status ≠ ConnectionStatus.Connected) := by
      rintro (h | h)
      · rw [hclient] at h; cases h
      · exact h hconn
    constructor
    · constructor
      · unfold ping
        rw [hst]
        simp only
        rw [if_neg hcond, if_pos trivial]
      · unfold ping
        rw [hst]
        simp only
        rw [if_neg hcond, if_pos trivial]
        simp only
        rw [lookup_setKey_self]
    · constructor
      · unfold ping
        rw [hst]
        simp only
        rw [if_neg hcond]
        simp
      · unfold ping
        rw [hst]
        simp only
        rw [if_neg hcond]
        simp only [Bool.false_eq_true, if_false]
        rw [lookup_setKey_self]

/-- Witness for C5: a successful ping on the connected endpoint of the
concrete two-endpoint state refreshes its heartbeat and zeroes failures. -/
theorem C5_ping_witness :
    (ping cexMap "https://c2.example" true 7).1 = true ∧
    (ping cexMap "https://c2.example" true 7).2.lookup
        (normalizeClusterUrl "https://c2.example") =
      some { cexConnectedState with lastHeartbeat := some 7, consecutiveFailures := 0 } :=
  ((C5_ping_spec cexMap "https://c2.example" 7).2 cexConnectedState
    (by decide) rfl rfl).1

/-! ## Claim C6 — fan-out call aggregation -/

theorem mergeSettledResults_foldl (results : List (Except String ToolCallResult))
    (acc : List ToolContent × Bool) :
    results.foldl
      (fun (acc : List ToolContent × Bool) r =>
        match r with
        | Except.ok v => (acc.1 ++ v.content, acc.2 || v.isError)
        | Except.error reason =>
          (acc.1 ++ [textContent ("Error from one downstream: " ++ reason)], true))
      acc =
    (acc.1 ++ (results.map settledContent).flatten,
      acc.2 || results.any settledIsError) := by
  induction results generalizing acc with
  | nil => simp
  | cons r rest ih =>
    rw [List.foldl_cons]
    cases r with
    | ok v =>
      rw [ih]
      simp [settledContent, settledIsError, Bool.or_assoc]
    | error reason =>
      rw [ih]
      simp [settledContent, settledIsError]

theorem mergeSettledResults_spec (results : List (Except String ToolCallResult)) :
    (mergeSettledResults results).content = (results.map settledContent).flatten ∧
    (mergeSettledResults results).isError = results.any settledIsError := by
  unfold mergeSettledResults
  rw [mergeSettledResults_foldl]
  constructor
  · simp
  · simp

/-- C6: when no endpoint is in `Connected` status with a live client,
`callToolOnAll` answers the no-endpoints textual error with
`isError = true`; otherwise its `content` is the concatenation, in map
order, of the per-endpoint settled contributions — a fulfilled call
contributes its own `content` array and a rejected invocation
contributes one textual error entry — and the aggregate `isError` is
true iff at least one endpoint's call returned `isError = true` or
rejected (so it is `false` when every call succeeded cleanly). -/
theorem C6_callToolOnAll_spec (ds : DSMap)
    (settle : String → Except String ToolCallResult) :
    (connectedEntries ds = [] →
      callToolOnAll ds settle =
        { content := [textContent
            "Error: No downstream MCP servers are currently connected."],
          isError := true }) ∧
    (connectedEntries ds ≠ [] →
      (callToolOnAll ds settle).content =
        ((connectedEntries ds).map (fun p => settledContent (settle p.1))).flatten ∧
      ((callToolOnAll ds settle).isError = true ↔
        ∃ p ∈ connectedEntries ds, settledIsError (settle p.1) = true)) ∧
    (∀ reason, settledContent (Except.error reason) =
      [textContent ("Error from one downstream: " ++ reason)] ∧
      settledIsError (Except.error reason) = true) ∧
    (∀ v, settledContent (Except.ok v) = v.content ∧
      settledIsError (Except.ok v) = v.isError) := by
  refine ⟨?_, ?_, fun reason => ⟨rfl, rfl⟩, fun v => ⟨rfl, rfl⟩⟩
  · intro hempty
    unfold callToolOnAll
    rw [if_pos (List.isEmpty_iff.mpr hempty)]
  · intro hne
    have hb : (connectedEntries ds).isEmpty = false := by
      cases he : (connectedEntries ds).isEmpty
      · rfl
      · exact absurd (List.isEmpty_iff.mp he) hne
    have hcall : callToolOnAll ds settle =
        mergeSettledResults ((connectedEntries ds).map (fun p => settle p.1)) := by
      unfold callToolOnAll
      rw [hb]
      simp only [Bool.false_eq_true, if_false]
    rw [hcall]
    constructor
    · rw [(mergeSettledResults_spec _).1, List.map_map]
      rfl
    · rw [(mergeSettledResults_spec _).2]
      simp [List.any_eq_true, List.mem_map]

/-- Witness for C6: the aggregation equalities applied to the concrete
two-endpoint state (one `Failed`, one `Connected`) and a concrete settled
outcome per endpoint. -/
theorem C6_callToolOnAll_witness :
    (callToolOnAll cexMap
      (fun u => Except.ok { content := [textContent u], isError := false })).content =
      ((connectedEntries cexMap).map (fun p => settledContent
        (Except.ok { content := [textContent p.1], isError := false }))).flatten :=
  ((C6_callToolOnAll_spec cexMap
    (fun u => Except.ok { content := [textContent u], isError := false })).2.1
    (by decide)).1

/-! ## Claim C9 — reconnect backoff recurrence -/

theorem lookup_append_of_none {β : Type} (l m : List (String × β)) (k : String)
    (h : l.lookup k = none) : (l ++ m).lookup k = m.lookup k := by
  induction l with
  | nil => simp
  | cons p rest ih =>
    by_cases hp : p.1 = k
    · exfalso
      cases p with
      | mk a b =>
        simp only at hp
        subst hp
        simp [List.lookup] at h
    · rw [List.cons_append, lookup_cons_ne _ _ _ hp]
      apply ih
      rw [lookup_cons_ne _ _ _ hp] at h
      exact h

theorem scheduleReconnect_backoffs (hm : HealthState) (clusterUrl : String) :
    (scheduleReconnect hm clusterUrl).reconnectBackoffs = hm.reconnectBackoffs := by
  unfold scheduleReconnect
  by_cases h : (hm.reconnectTimers.lookup clusterUrl).isSome = true
  · rw [if_pos h]
  · rw [if_neg h]

theorem scheduleReconnect_delay (hm : HealthState) (clusterUrl : String)
    (htimer : hm.reconnectTimers.lookup clusterUrl = none) :
    scheduledDelaySeconds (scheduleReconnect hm clusterUrl) clusterUrl =
      some ((hm.reconnectBackoffs.lookup clusterUrl).getD 1) := by
  unfold scheduleReconnect scheduledDelaySeconds
  rw [if_neg (by rw [htimer]; simp)]
  simp only
  rw [lookup_append_of_none _ _ _ htimer]
  simp [List.lookup]

/-- C9: the reconnect backoff follows the claimed recurrence.  (1) With
no stored backoff and no pending timer, scheduling arms a timer of 1
second.  (2) When a pending timer fires and the reconnect fails while
the loop runs, the stored backoff becomes `min(captured * 2, max)` and
the immediately rescheduled timer is armed with that same delay.  (3)
When the firing timer's reconnect succeeds, the stored backoff is
cleared, and a subsequent schedule starts again at 1 second.  (4) A
successful ping likewise clears the stored backoff.  The `Nodup`
hypotheses state that the JS `Map`s backing the bookkeeping have unique
keys, which holds of every reachable state. -/
theorem C9_reconnect_backoff_spec (maxReconnectBackoffSeconds : Nat)
    (hm : HealthState) (clusterUrl : String) :
    (hm.reconnectBackoffs.lookup clusterUrl = none →
      hm.reconnectTimers.lookup clusterUrl = none →
      scheduledDelaySeconds (scheduleReconnect hm clusterUrl) clusterUrl = some 1) ∧
    (∀ c, hm.reconnectTimers.lookup clusterUrl = some c → hm.running = true →
      (hm.reconnectTimers.map Prod.fst).Nodup →
      (fireReconnectTimer maxReconnectBackoffSeconds hm clusterUrl
          false).reconnectBackoffs.lookup clusterUrl =
        some (min (c * 2) maxReconnectBackoffSeconds) ∧
      scheduledDelaySeconds
          (fireReconnectTimer maxReconnectBackoffSeconds hm clusterUrl false)
          clusterUrl =
        some (min (c * 2) maxReconnectBackoffSeconds)) ∧
    (∀ c, hm.reconnectTimers.lookup clusterUrl = some c → hm.running = true →
      (hm.reconnectTimers.map Prod.fst).Nodup →
      (hm.reconnectBackoffs.map Prod.fst).Nodup →
      (fireReconnectTimer maxReconnectBackoffSeconds hm clusterUrl
          true).reconnectBackoffs.lookup clusterUrl = none ∧
      scheduledDelaySeconds
          (scheduleReconnect
            (fireReconnectTimer maxReconnectBackoffSeconds hm clusterUrl true)
            clusterUrl)
          clusterUrl = some 1) ∧
    ((hm.reconnectBackoffs.map Prod.fst).Nodup →
      (clearBackoffOnPingSuccess hm clusterUrl).reconnectBackoffs.lookup
        clusterUrl = none) := by
  refine ⟨?_, ?_, ?_, ?_⟩
  · intro hb ht
    rw [scheduleReconnect_delay hm clusterUrl ht, hb]
    rfl
  · intro c ht hrun hnd
    have hfire : fireReconnectTimer maxReconnectBackoffSeconds hm clusterUrl false =
        scheduleReconnect
          { hm with
            reconnectTimers := eraseKey hm.reconnectTimers clusterUrl,
            reconnectBackoffs := setKey hm.reconnectBackoffs clusterUrl
              (min (c * 2) maxReconnectBackoffSeconds) } clusterUrl := by
      unfold fireReconnectTimer
      rw [ht]
      simp [hrun]
    have htimer2 : (eraseKey hm.reconnectTimers clusterUrl).lookup clusterUrl = none :=
      lookup_eraseKey_self _ _ hnd
    constructor
    · rw [hfire, scheduleReconnect_backoffs]
      exact lookup_setKey_self _ _ _
    · rw [hfire, scheduleReconnect_delay _ _ htimer2]
      simp only
      rw [lookup_setKey_self]
      rfl
  · intro c ht hrun hndt hndb
    have hfire : fireReconnectTimer maxReconnectBackoffSeconds hm clusterUrl true =
        { hm with
          reconnectTimers := eraseKey hm.reconnectTimers clusterUrl,
          reconnectBackoffs := eraseKey hm.reconnectBackoffs clusterUrl } := by
      unfold fireReconnectTimer
      rw [ht]
      simp [hrun]
    have hbo : (eraseKey hm.reconnectBackoffs clusterUrl).lookup clusterUrl = none :=
      lookup_eraseKey_self _ _ hndb
    have hti : (eraseKey hm.reconnectTimers clusterUrl).lookup clusterUrl = none :=
      lookup_eraseKey_self _ _ hndt
    constructor
    · rw [hfire]
      exact hbo
    · rw [hfire, scheduleReconnect_delay _ _ hti]
      simp only
      rw [hbo]
      rfl
  · intro hndb
    unfold clearBackoffOnPingSuccess
    exact lookup_eraseKey_self _ _ hndb

/-- Witness for C9: from a fresh running health monitor, the first
scheduled reconnect for a concrete endpoint is armed with a 1-second
delay. -/
theorem C9_reconnect_backoff_witness :
    scheduledDelaySeconds
      (scheduleReconnect
        { reconnectBackoffs := [], reconnectTimers := [], running := true }
        "https://c1.example")
      "https://c1.example" = some 1 :=
  (C9_reconnect_backoff_spec 300
    { reconnectBackoffs := [], reconnectTimers := [], running := true }
    "https://c1.example").1 rfl rfl

/-! ## Claim C10 — deterministic fan-out merge order -/

theorem lookup_isSome_iff {β : Type} (m : List (String × β)) (k : String) :
    (m.lookup k).isSome = true ↔ k ∈ m.map Prod.fst := by
  induction m with
  | nil => simp [List.lookup]
  | cons p rest ih =>
    cases p with
    | mk a b =>
      by_cases h : a = k
      · subst h
        simp [List.lookup]
      · rw [lookup_cons_ne _ (a, b) rest (by simpa using h)]
        rw [ih]
        simp only [List.map_cons, List.mem_cons]
        constructor
        · exact Or.inr
        · rintro (he | hmem)
          · exact absurd he.symm h
          · exact hmem

theorem initializeAll_keys_go (mappings : List ClusterMapping)
    (connectOutcome : String → Option (List ToolDefinition)) (now : Nat)
    (ds : DSMap) :
    (mappings.foldl
      (fun ds m =>
        if (ds.lookup (normalizeClusterUrl m.clusterUrl)).isSome then ds
        else ds ++ [(normalizeClusterUrl m.clusterUrl,
          initialDownstreamState m
            (connectOutcome (normalizeClusterUrl m.clusterUrl)) now)])
      ds).map Prod.fst =
    mappings.foldl (fun acc m => addToSet acc (normalizeClusterUrl m.clusterUrl))
      (ds.map Prod.fst) := by
  induction mappings generalizing ds with
  | nil => rfl
  | cons m rest ih =>
    rw [List.foldl_cons, List.foldl_cons]
    by_cases h : (ds.lookup (normalizeClusterUrl m.clusterUrl)).isSome = true
    · have hk : normalizeClusterUrl m.clusterUrl ∈ ds.map Prod.fst :=
        (lookup_isSome_iff _ _).mp h
      have ha : addToSet (ds.map Prod.fst) (normalizeClusterUrl m.clusterUrl) =
          ds.map Prod.fst := by
        unfold addToSet
        rw [if_pos hk]
      rw [if_pos h, ha]
      exact ih ds
    · have hk : normalizeClusterUrl m.clusterUrl ∉ ds.map Prod.fst := by
        intro hmem
        exact h ((lookup_isSome_iff _ _).mpr hmem)
      have ha : addToSet (ds.map Prod.fst) (normalizeClusterUrl m.clusterUrl) =
          ds.map Prod.fst ++ [normalizeClusterUrl m.clusterUrl] := by
        unfold addToSet
        rw [if_neg hk]
      rw [if_neg h, ha, ih]
      simp

/-- C10 (implicit claim): the fan-out merge order is deterministic — the
keys of the supervisor map built by `initializeAll` are exactly the
deduplicated configuration order of normalized URLs, and when at least
one endpoint is connected, `callToolOnAll`'s merged `content` is the
concatenation of the per-endpoint contributions over the connected
entries in that insertion order; the connected key sequence is an
order-preserving subsequence of the deduplicated configuration order.
`callToolOnAll` is a pure function of the state and the settled
outcomes, so two runs over the same state merge in the same order. -/
theorem C10_fanout_merge_order (mappings : List ClusterMapping)
    (connectOutcome : String → Option (List ToolDefinition)) (now : Nat)
    (settle : String → Except String ToolCallResult) :
    getClusterUrls (initializeAll mappings connectOutcome now) =
      dedupedClusterUrls mappings ∧
    (connectedEntries (initializeAll mappings connectOutcome now) ≠ [] →
      (callToolOnAll (initializeAll mappings connectOutcome now) settle).content =
        ((connectedEntries (initializeAll mappings connectOutcome now)).map
          (fun p => settledContent (settle p.1))).flatten) ∧
    List.Sublist
      ((connectedEntries (initializeAll mappings connectOutcome now)).map Prod.fst)
      (dedupedClusterUrls mappings) := by
  have hkeys : getClusterUrls (initializeAll mappings connectOutcome now) =
      dedupedClusterUrls mappings := by
    unfold getClusterUrls initializeAll dedupedClusterUrls
    exact initializeAll_keys_go mappings connectOutcome now []
  refine ⟨hkeys, ?_, ?_⟩
  · intro hne
    have hb : (connectedEntries (initializeAll mappings connectOutcome now)).isEmpty
        = false := by
      cases he : (connectedEntries (initializeAll mappings connectOutcome now)).isEmpty
      · rfl
      · exact absurd (List.isEmpty_iff.mp he) hne
    have hcall : callToolOnAll (initializeAll mappings connectOutcome now) settle =
        mergeSettledResults
          ((connectedEntries (initializeAll mappings connectOutcome now)).map
            (fun p => settle p.1)) := by
      unfold callToolOnAll
      rw [hb]
      simp only [Bool.false_eq_true, if_false]
    rw [hcall, (mergeSettledResults_spec _).1, List.map_map]
    rfl
  · rw [← hkeys]
    unfold connectedEntries getClusterUrls
    exact (List.filter_sublist _).map Prod.fst

/-- Witness for C10: a concrete two-mapping configuration (with one
duplicate spelled differently) initializes, fans out, and merges in the
deduplicated configuration order. -/
theorem C10_fanout_merge_witness :
    (callToolOnAll
      (initializeAll
        [{ clusterUrl := "https://C1.example/", identity := "" },
         { clusterUrl := "https://c1.example", identity := "" },
         { clusterUrl := "https://c2.example", identity := "" }]
        (fun _ => some []) 0)
      (fun u => Except.ok { content := [textContent u], isError := false })).content =
      ((connectedEntries
        (initializeAll
          [{ clusterUrl := "https://C1.example/", identity := "" },
           { clusterUrl := "https://c1.example", identity := "" },
           { clusterUrl := "https://c2.example", identity := "" }]
          (fun _ => some []) 0)).map
        (fun p => settledContent
          (Except.ok { content := [textContent p.1], isError := false }))).flatten :=
  (C10_fanout_merge_order
    [{ clusterUrl := "https://C1.example/", identity := "" },
     { clusterUrl := "https://c1.example", identity := "" },
     { clusterUrl := "https://c2.example", identity := "" }]
    (fun _ => some []) 0
    (fun u => Except.ok { content := [textContent u], isError := false })).2.1
    (by decide)

end McpRouter
